import Mathlib

/-!
Verification of the remote-ISO sharing subsystem of `UI/RemoteISOScreen.cpp`
(ppsspp-go2).  The file shallowly embeds the server request handler, the
served-path mapping construction, the listener bind phase, the lifecycle
event handlers and the peer scanner, and proves the spec's claims about them.

Conventions of the embedding:
* machine strings are Lean `String` (or `List Char` where per-character
  processing matters); file contents are `List Nat` (byte values);
* `s64`/`int` values are Lean `Int`;
* the operating system (file I/O, `Listen`, DNS resolve + TCP connect) is an
  explicit oracle argument, so each function is a pure function of the request
  and the oracle.
-/

/-- The `ServerStatus` enum of `RemoteISOScreen.cpp`. -/
inductive ServerStatus
  | STOPPED
  | STARTING
  | RUNNING
  | STOPPING
  deriving DecidableEq, Repr

/-- Outcome of the file-system calls made by one invocation of the request
handler: whether `File::OpenCFile` returns a non-null `FILE*`, whether
`fseek(fp, begin, SEEK_SET)` returns 0, whether the `i`-th `fread` of the
streaming loop succeeds, and (since the C code never checks `fread`'s return
value) the unspecified bytes left in `buf` when the `i`-th read fails:
`garbage i j` is byte `j` of the buffer in that case. -/
structure IOOracle where
  openOk : Bool
  seekOk : Bool
  readOk : Nat → Bool
  garbage : Nat → Nat → Nat

/-- The parsed outcome of looking for a `Range` header on a GET:
no header at all, a header `sscanf` cannot parse as `bytes=%lld-%lld`,
or the two parsed integers (`begin` and `last` in the C code). -/
inductive RangeHeader
  | absent
  | malformed
  | parsed (bgn lst : Int)
  deriving DecidableEq, Repr

/-- HTTP request methods the handler distinguishes
(`request.Method() == http::RequestHeader::HEAD` or anything else). -/
inductive Method
  | HEAD
  | GET
  deriving DecidableEq, Repr

/-- One response as observed by the client: the arguments of
`WriteHttpResponseHeader(status, contentLength, contentType, extraHeaders)`
followed by the sequence of `Out()->Push(...)` payloads (each a byte list). -/
structure HttpResponse where
  status : Int
  contentLength : Int
  contentType : String
  extraHeaders : String
  body : List (List Nat)
  deriving DecidableEq, Repr

/-- Bytes of a C string literal pushed with `Out()->Push("...")`. -/
def strBytes (s : String) : List Nat :=
  s.data.map Char.toNat

/-- Constant `CHUNK_SIZE = 16 * 1024` from the handler's streaming loop. -/
def CHUNK_SIZE : Nat := 16 * 1024

/-- The `Content-Range: bytes %lld-%lld/%lld\r\n` header built with `sprintf`. -/
def contentRangeHeader (bgn lst sz : Int) : String :=
  "Content-Range: bytes " ++ toString bgn ++ "-" ++ toString lst ++ "/" ++
    toString sz ++ "\r\n"

/-- The streaming loop
`for (pos = 0; pos < len; pos += CHUNK_SIZE) { chunklen = min(len-pos, CHUNK_SIZE); fread; Push(buf, chunklen) }`,
expressed over `span`, the `len` bytes of the file starting at offset `begin`
(the loop always reaches this point with `begin + len ≤ fileSize`, so the
file really holds `len` bytes there; `fseek(begin)` has positioned `fp`).
Iteration `i` covers `pos = i * CHUNK_SIZE`, and `chunklen = min (len - pos)
CHUNK_SIZE` is exactly `(span.drop pos).take CHUNK_SIZE |>.length`.  The C
code never checks `fread`'s return value: when read `i` fails it still pushes
`chunklen` bytes, namely whatever `garbage i` says is in `buf`.  `fuel`
bounds the iterations; each one consumes at least one byte of `span`, so
`fuel = span.length` (as set by `streamChunks`) is always enough. -/
def streamChunksAux (readOk : Nat → Bool) (garbage : Nat → Nat → Nat) :
    Nat → Nat → List Nat → List (List Nat)
  | 0, _, _ => []
  | _ + 1, _, [] => []
  | fuel + 1, i, x :: xs =>
    let chunk := (x :: xs).take CHUNK_SIZE
    (if readOk i then chunk else (List.range chunk.length).map (garbage i)) ::
      streamChunksAux readOk garbage fuel (i + 1) ((x :: xs).drop CHUNK_SIZE)

/-- The streaming loop run on a whole span, starting at iteration 0. -/
def streamChunks (readOk : Nat → Bool) (garbage : Nat → Nat → Nat)
    (span : List Nat) : List (List Nat) :=
  streamChunksAux readOk garbage span.length 0 span

/-- The request handler lambda of `ExecuteServer`, as a function of the
underlying file's bytes (`File::GetFileSize` returns their count), the I/O
oracle, the method and the range-header outcome.  It mirrors the C code
branch for branch: HEAD first; then a present `Range` header (400 on parse
failure, 416 on an out-of-bounds range, 500 on open/seek failure, otherwise
206 with the streamed span); 418 when no `Range` header is present. -/
def handler (file : List Nat) (io : IOOracle) (m : Method)
    (range : RangeHeader) : HttpResponse :=
  let sz : Int := (file.length : Int)
  match m, range with
  | .HEAD, _ =>
    ⟨200, sz, "application/octet-stream", "Accept-Ranges: bytes\r\n", []⟩
  | .GET, .absent =>
    ⟨418, -1, "text/plain", "",
      [strBytes "This server only supports range requests."]⟩
  | .GET, .malformed =>
    ⟨400, -1, "text/plain", "",
      [strBytes "Could not understand range request."]⟩
  | .GET, .parsed bgn lst =>
    if bgn < 0 ∨ bgn > lst ∨ lst ≥ sz then
      ⟨416, -1, "text/plain", "", [strBytes "Range goes outside of file."]⟩
    else if ¬io.openOk ∨ ¬io.seekOk then
      ⟨500, -1, "text/plain", "", [strBytes "File access failed."]⟩
    else
      let len := lst - bgn + 1
      ⟨206, len, "application/octet-stream", contentRangeHeader bgn lst sz,
        streamChunks io.readOk io.garbage
          ((file.drop bgn.toNat).take len.toNat)⟩

/-! ### Properties of the streaming loop -/

/-- When every `fread` succeeds, the pushed chunks concatenate back to the
streamed span (for any fuel covering the span and any starting index). -/
theorem streamChunksAux_join (readOk : Nat → Bool) (g : Nat → Nat → Nat)
    (h : ∀ j, readOk j = true) :
    ∀ (fuel : Nat) (span : List Nat), span.length ≤ fuel → ∀ i,
      (streamChunksAux readOk g fuel i span).flatten = span := by
  intro fuel
  induction fuel with
  | zero =>
    intro span hs i
    have : span = [] := List.eq_nil_of_length_eq_zero (Nat.le_zero.mp hs)
    subst this
    simp [streamChunksAux]
  | succ fuel ih =>
    intro span hs i
    match span with
    | [] => simp [streamChunksAux]
    | x :: xs =>
      have hdrop : ((x :: xs).drop CHUNK_SIZE).length ≤ fuel := by
        rw [List.length_drop]
        have : (x :: xs).length ≤ fuel + 1 := hs
        have hc : 1 ≤ CHUNK_SIZE := by norm_num [CHUNK_SIZE]
        omega
      simp only [streamChunksAux, h i, if_pos, List.flatten_cons]
      rw [ih _ hdrop (i + 1)]
      exact List.take_append_drop _ _

/-- Every chunk the streaming loop pushes holds at most `CHUNK_SIZE` bytes,
whether or not its `fread` succeeded. -/
theorem streamChunksAux_chunk_le (readOk : Nat → Bool) (g : Nat → Nat → Nat) :
    ∀ (fuel i : Nat) (span : List Nat) (c : List Nat),
      c ∈ streamChunksAux readOk g fuel i span → c.length ≤ CHUNK_SIZE := by
  intro fuel
  induction fuel with
  | zero => intro i span c hc; simp [streamChunksAux] at hc
  | succ fuel ih =>
    intro i span c hc
    match span with
    | [] => simp [streamChunksAux] at hc
    | x :: xs =>
      simp only [streamChunksAux, List.mem_cons] at hc
      rcases hc with hc | hc
      · subst hc
        split
        · exact le_trans (List.length_take_le _ _) (le_refl _)
        · rw [List.length_map, List.length_range]
          exact List.length_take_le _ _
      · exact ih _ _ _ hc

/-- The 206 branch of the handler, reached for an in-bounds range when open
and seek succeed. -/
theorem handler_eq_206 (file : List Nat) (io : IOOracle) (bgn lst : Int)
    (hr : ¬(bgn < 0 ∨ bgn > lst ∨ lst ≥ (file.length : Int)))
    (ho : io.openOk = true) (hs : io.seekOk = true) :
    handler file io .GET (.parsed bgn lst) =
      ⟨206, lst - bgn + 1, "application/octet-stream",
        contentRangeHeader bgn lst (file.length : Int),
        streamChunks io.readOk io.garbage
          ((file.drop bgn.toNat).take (lst - bgn + 1).toNat)⟩ := by
  simp only [handler]
  rw [if_neg hr, if_neg (by simp [ho, hs])]

/-- C9: a HEAD request on a served path is answered 200 with
`Content-Length` equal to the file's size, `Content-Type`
`application/octet-stream`, an `Accept-Ranges: bytes` header and no body. -/
theorem C9_head_request (file : List Nat) (io : IOOracle) (range : RangeHeader) :
    handler file io .HEAD range =
      ⟨200, (file.length : Int), "application/octet-stream",
        "Accept-Ranges: bytes\r\n", []⟩ := by
  cases range <;> rfl

/-- C8: a syntactically well-formed but unsatisfiable range
(`start < 0`, `start > end`, or `end >= fileSize`) is answered 416 with the
fixed plain-text body — in particular no byte of the file is sent. -/
theorem C8_unsatisfiable_range (file : List Nat) (io : IOOracle) (bgn lst : Int)
    (h : bgn < 0 ∨ bgn > lst ∨ lst ≥ (file.length : Int)) :
    handler file io .GET (.parsed bgn lst) =
      ⟨416, -1, "text/plain", "", [strBytes "Range goes outside of file."]⟩ := by
  simp only [handler]
  rw [if_pos h]

/-- Witness for C8 at a concrete input: file of 3 bytes, range `bytes=0-5`. -/
theorem C8_unsatisfiable_range_witness :
    handler [1, 2, 3] ⟨true, true, fun _ => true, fun _ _ => 0⟩ .GET
        (.parsed 0 5) =
      ⟨416, -1, "text/plain", "", [strBytes "Range goes outside of file."]⟩ :=
  C8_unsatisfiable_range [1, 2, 3] _ 0 5 (by decide)

/-- C1: for `0 ≤ start ≤ end < fileSize` and successful I/O, the ranged GET
is answered 206 with the `Content-Range` header, `Content-Length`
`end - start + 1`, and a body of exactly `end - start + 1` bytes equal to
bytes `[start, end]` of the file, delivered in chunks of at most 16 KiB. -/
theorem C1_valid_range_get (file : List Nat) (io : IOOracle) (bgn lst : Int)
    (h0 : 0 ≤ bgn) (hbl : bgn ≤ lst) (hlt : lst < (file.length : Int))
    (ho : io.openOk = true) (hs : io.seekOk = true)
    (hread : ∀ i, io.readOk i = true) :
    (handler file io .GET (.parsed bgn lst)).status = 206 ∧
    (handler file io .GET (.parsed bgn lst)).contentLength = lst - bgn + 1 ∧
    (handler file io .GET (.parsed bgn lst)).contentType =
      "application/octet-stream" ∧
    (handler file io .GET (.parsed bgn lst)).extraHeaders =
      contentRangeHeader bgn lst (file.length : Int) ∧
    (handler file io .GET (.parsed bgn lst)).body.flatten =
      (file.drop bgn.toNat).take (lst - bgn + 1).toNat ∧
    ((handler file io .GET (.parsed bgn lst)).body.flatten).length =
      (lst - bgn + 1).toNat ∧
    ∀ c ∈ (handler file io .GET (.parsed bgn lst)).body,
      c.length ≤ CHUNK_SIZE := by
  have hr : ¬(bgn < 0 ∨ bgn > lst ∨ lst ≥ (file.length : Int)) := by omega
  rw [handler_eq_206 file io bgn lst hr ho hs]
  have hflat :
      (streamChunks io.readOk io.garbage
          ((file.drop bgn.toNat).take (lst - bgn + 1).toNat)).flatten =
        (file.drop bgn.toNat).take (lst - bgn + 1).toNat :=
    streamChunksAux_join io.readOk io.garbage hread _ _ (le_refl _) 0
  refine ⟨rfl, rfl, rfl, rfl, hflat, ?_, ?_⟩
  · rw [hflat, List.length_take, List.length_drop]
    omega
  · intro c hc
    exact streamChunksAux_chunk_le io.readOk io.garbage _ _ _ _ hc

/-- Witness for C1 at a concrete input: file `[1,2,3,4,5]`, range
`bytes=1-3`. -/
theorem C1_valid_range_get_witness :
    (handler [1, 2, 3, 4, 5] ⟨true, true, fun _ => true, fun _ _ => 0⟩ .GET
        (.parsed 1 3)).status = 206 :=
  (C1_valid_range_get [1, 2, 3, 4, 5] ⟨true, true, fun _ => true, fun _ _ => 0⟩
    1 3 (by decide) (by decide) (by decide) rfl rfl (fun _ => rfl)).1

/-- C4 fails as stated: with an in-bounds range and the very first `fread`
failing (mid-stream, after the 206 header was already written), the response
status is 206, not 500 — the streaming loop never checks `fread`'s result. -/
theorem C4_counterexample :
    (⟨true, true, fun _ => false, fun _ _ => 0⟩ : IOOracle).readOk 0 = false ∧
    (handler [1, 2, 3] ⟨true, true, fun _ => false, fun _ _ => 0⟩ .GET
        (.parsed 0 2)).status = 206 := by
  exact ⟨rfl, rfl⟩

/-- C4 amended: only a file open or seek failure — both detected before the
response header is written — yields status 500 with the plain-text body and
an aborted transfer (no file bytes sent); an `fread` failure mid-stream is
not detected and leaves the already-started 206 response in place. -/
theorem C4_open_seek_failure (file : List Nat) (io : IOOracle) (bgn lst : Int)
    (hr : ¬(bgn < 0 ∨ bgn > lst ∨ lst ≥ (file.length : Int)))
    (hfail : io.openOk = false ∨ io.seekOk = false) :
    handler file io .GET (.parsed bgn lst) =
      ⟨500, -1, "text/plain", "", [strBytes "File access failed."]⟩ := by
  simp only [handler]
  rw [if_neg hr, if_pos]
  rcases hfail with hfail | hfail <;> simp [hfail]

/-- Witness for the amended C4 at a concrete input: open fails on a file of
3 bytes with range `bytes=0-1`. -/
theorem C4_open_seek_failure_witness :
    handler [1, 2, 3] ⟨false, true, fun _ => true, fun _ _ => 0⟩ .GET
        (.parsed 0 1) =
      ⟨500, -1, "text/plain", "", [strBytes "File access failed."]⟩ :=
  C4_open_seek_failure [1, 2, 3] _ 0 1 (by decide) (Or.inl rfl)

/-! ### The served-path mapping built at the top of `ExecuteServer` -/

/-- Source expression `filename.substr(basepos + 1)` where
`basepos = filename.find_last_of(sep)` and `sep = "/"` (the non-Windows
build): the suffix after the last `'/'`, or the whole name if none. -/
def afterLastSep : List Char → List Char
  | [] => []
  | c :: cs =>
    if ('/' : Char) ∈ cs then afterLastSep cs
    else if c = '/' then cs
    else c :: cs

/-- Predicate `endsWithNoCase(str, what)`: case-insensitive suffix test (both sides
lower-cased character by character). -/
def endsWithNoCase (str what : List Char) : Bool :=
  (what.map Char.toLower).isSuffixOf (str.map Char.toLower)

/-- Source expression `ReplaceAll(s, " ", "%20")`. -/
def escapeSpaces (s : List Char) : List Char :=
  s.flatMap fun c => if c = ' ' then "%20".data else [c]

/-- Source expression `basename = "/" + (basepos == npos ? filename : filename.substr(basepos + 1))`. -/
def servedBasename (filename : List Char) : List Char :=
  '/' :: afterLastSep filename

/-- The whitelist test
`endsWithNoCase(basename, ".cso") || endsWithNoCase(basename, ".iso")`. -/
def isServed (filename : List Char) : Bool :=
  endsWithNoCase (servedBasename filename) ".cso".data ||
    endsWithNoCase (servedBasename filename) ".iso".data

/-- The URL path the file is served under:
`ReplaceAll(basename, " ", "%20")`. -/
def servedKey (filename : List Char) : List Char :=
  escapeSpaces (servedBasename filename)

/-- Assignment `paths[key] = filename` on a `std::map`: replace the entry with that key
when present, insert otherwise.  The mapping is represented by its entry
list; entry order is irrelevant to every claim (a `std::map` stores entries
in key order regardless). -/
def mapInsert (m : List (List Char × List Char)) (k v : List Char) :
    List (List Char × List Char) :=
  m.filter (fun p => p.1 != k) ++ [(k, v)]

/-- The `paths` map of `ExecuteServer`: fold the whitelist-and-insert step
over `g_Config.recentIsos` in order. -/
def buildPaths (files : List (List Char)) : List (List Char × List Char) :=
  files.foldl
    (fun m filename =>
      if isServed filename then mapInsert m (servedKey filename) filename
      else m)
    []

/-- The last file of `files` that passes the whitelist and whose served key
is `k` — the "last writer" for that key. -/
def lastServedWith (files : List (List Char)) (k : List Char) :
    Option (List Char) :=
  (files.filter (fun f => isServed f && servedKey f == k)).getLast?

theorem mem_mapInsert {m : List (List Char × List Char)} {k v k' v' : List Char} :
    (k', v') ∈ mapInsert m k v ↔
      (k' = k ∧ v' = v) ∨ ((k', v') ∈ m ∧ k' ≠ k) := by
  simp only [mapInsert, List.mem_append, List.mem_filter, List.mem_singleton,
    Prod.mk.injEq, bne_iff_ne, ne_eq]
  tauto

theorem buildPaths_concat (files : List (List Char)) (f : List Char) :
    buildPaths (files ++ [f]) =
      if isServed f then mapInsert (buildPaths files) (servedKey f) f
      else buildPaths files := by
  simp [buildPaths, List.foldl_append]

theorem lastServedWith_concat (files : List (List Char)) (f k : List Char) :
    lastServedWith (files ++ [f]) k =
      if isServed f && (servedKey f == k) then some f
      else lastServedWith files k := by
  cases h : isServed f && (servedKey f == k) <;>
    simp [lastServedWith, List.filter_append, h, List.getLast?_concat]

/-- C2 amended: an entry `(k, v)` is in the served mapping exactly when `v`
is the LAST input path that passes the `.iso`/`.cso` whitelist and whose
escaped basename key is `k`; so every whitelisted path is keyed by
`'/' + basename` with spaces as `%20` and every non-matching path is absent,
but when two whitelisted paths collapse to the same key only the later one
is kept (last writer wins). -/
theorem C2_mapping_characterization (files : List (List Char))
    (k v : List Char) :
    (k, v) ∈ buildPaths files ↔ lastServedWith files k = some v := by
  induction files using List.reverseRecOn with
  | nil => simp [buildPaths, lastServedWith]
  | append_singleton fs f ih =>
    rw [buildPaths_concat, lastServedWith_concat]
    cases hserved : isServed f
    · simp [ih]
    · by_cases hkey : servedKey f = k
      · simp [hkey, mem_mapInsert, ih, eq_comm]
      · have hne : (servedKey f == k) = false := by
          simpa using hkey
        have hne' : ¬k = servedKey f := fun h => hkey h.symm
        simp [hne, hne', mem_mapInsert, ih]

/-- C2 fails as stated: with input `["a/x.iso", "b/x.iso"]` the first path
passes the whitelist, yet it is absent from the served mapping — the second
path overwrote it under the shared key `/x.iso`. -/
theorem C2_counterexample :
    isServed "a/x.iso".data = true ∧
    servedKey "a/x.iso".data = "/x.iso".data ∧
    ("/x.iso".data, "a/x.iso".data) ∉
      buildPaths ["a/x.iso".data, "b/x.iso".data] ∧
    buildPaths ["a/x.iso".data, "b/x.iso".data] =
      [("/x.iso".data, "b/x.iso".data)] := by
  decide

/-! ### The listener bind phase of `ExecuteServer` -/

/-- Observable outcome of the bind phase: the ports passed to
`http->Listen`, in order, and the `ServerStatus` stored by the
`UpdateStatus` call that follows. -/
structure ListenPhase where
  attempts : List Int
  status : ServerStatus
  deriving DecidableEq, Repr

/-- Source statement `if (!http->Listen(g_Config.iRemoteISOPort)) http->Listen(0);` followed
by `UpdateStatus(ServerStatus::RUNNING);`.  `listenOk p` tells whether
`Listen(p)` succeeds; the return value of the second `Listen` is never
inspected by the code. -/
def listenPhase (listenOk : Int → Bool) (preferredPort : Int) : ListenPhase :=
  if listenOk preferredPort then ⟨[preferredPort], .RUNNING⟩
  else ⟨[preferredPort, 0], .RUNNING⟩

/-- C3 fails as stated: when binding fails on every port (both `Listen`
calls fail), the run still reaches `RUNNING` — the second `Listen`'s result
is ignored and `UpdateStatus(RUNNING)` runs unconditionally. -/
theorem C3_counterexample :
    (fun _ : Int => false) 3474 = false ∧
    (fun _ : Int => false) 0 = false ∧
    (listenPhase (fun _ => false) 3474).attempts = [3474, 0] ∧
    (listenPhase (fun _ => false) 3474).status = ServerStatus.RUNNING := by
  decide

/-- C3 amended: when binding the preferred port fails, the run retries with
port 0; but the retry's result is ignored and the run transitions to
`RUNNING` unconditionally, even when binding any port at all fails. -/
theorem C3_bind_retry (listenOk : Int → Bool) (preferredPort : Int)
    (h : listenOk preferredPort = false) :
    listenPhase listenOk preferredPort = ⟨[preferredPort, 0], .RUNNING⟩ := by
  simp [listenPhase, h]

/-- Witness for the amended C3 at a concrete input. -/
theorem C3_bind_retry_witness :
    listenPhase (fun _ => false) 3474 = ⟨[3474, 0], .RUNNING⟩ :=
  C3_bind_retry (fun _ => false) 3474 rfl

/-! ### The lifecycle event handlers -/

/-- Values of `UI::EventReturn` the two handlers return. -/
inductive EventReturn
  | EVENT_DONE
  | EVENT_SKIPPED
  deriving DecidableEq, Repr

/-- Observable outcome of `HandleStartServer` / `HandleStopServer`: the
`serverStatus` value after the call, the returned `EventReturn`, and
whether a new server thread was spawned. -/
structure LifecycleStep where
  status : ServerStatus
  result : EventReturn
  spawned : Bool
  deriving DecidableEq, Repr

/-- Handler `RemoteISOScreen::HandleStartServer`: under the status lock, a status
other than `STOPPED` returns `EVENT_SKIPPED` untouched; otherwise the status
becomes `STARTING`, the `ExecuteServer` thread is spawned and detached, and
`EVENT_DONE` is returned. -/
def HandleStartServer (s : ServerStatus) : LifecycleStep :=
  if s ≠ .STOPPED then ⟨s, .EVENT_SKIPPED, false⟩
  else ⟨.STARTING, .EVENT_DONE, true⟩

/-- Handler `RemoteISOScreen::HandleStopServer`: under the status lock, a status
other than `RUNNING` returns `EVENT_SKIPPED` untouched; otherwise the status
becomes `STOPPING` and `EVENT_DONE` is returned (no thread is spawned). -/
def HandleStopServer (s : ServerStatus) : LifecycleStep :=
  if s ≠ .RUNNING then ⟨s, .EVENT_SKIPPED, false⟩
  else ⟨.STOPPING, .EVENT_DONE, false⟩

/-- C7: starting changes state — to `STARTING`, spawning the run — exactly
when the state is `STOPPED`, and otherwise leaves the state unchanged and
returns `EVENT_SKIPPED`; stopping changes state — to `STOPPING` — exactly
when the state is `RUNNING`, and otherwise leaves the state unchanged and
returns `EVENT_SKIPPED`. -/
theorem C7_lifecycle_transitions (s : ServerStatus) :
    HandleStartServer s =
      (if s = .STOPPED then ⟨.STARTING, .EVENT_DONE, true⟩
       else ⟨s, .EVENT_SKIPPED, false⟩) ∧
    HandleStopServer s =
      (if s = .RUNNING then ⟨.STOPPING, .EVENT_DONE, false⟩
       else ⟨s, .EVENT_SKIPPED, false⟩) := by
  cases s <;> exact ⟨rfl, rfl⟩

/-! ### `FindServer`: directory query and peer scan -/

/-- One element of the JSON array returned by `/match/list`, as the code
reads it: `entry->getString("ip", "")` and `entry->getInt("p", 0)` fall back
to the given defaults when the field is missing, so each field is optional. -/
structure JsonEntry where
  ip : Option String
  p : Option Int
  deriving DecidableEq, Repr

/-- Source expression `entry->getString("ip", "")`. -/
def entryHost (e : JsonEntry) : String :=
  e.ip.getD ""

/-- Source expression `entry->getInt("p", 0)`. -/
def entryPort (e : JsonEntry) : Int :=
  e.p.getD 0

/-- The candidate URL `snprintf(url, sizeof(url), "http://%s:%d", host, port)`. -/
def candidateURL (e : JsonEntry) : String :=
  "http://" ++ entryHost e ++ ":" ++ toString (entryPort e)

/-- The probe `http.Resolve(host, port) && http.Connect()`, as a
reachability oracle on the (host, port) pair. -/
def entryReachable (reach : String → Int → Bool) (e : JsonEntry) : Bool :=
  reach (entryHost e) (entryPort e)

/-- The scanning loop over the parsed entries (`entry = entries->first_child;
while (entry) { ...; entry = entry->next_sibling; }`).  Besides the returned
URL it records which entries were probed, in order: the loop probes each
entry and returns the candidate URL at the first successful probe, falling
through to `""` when none succeeds. -/
def FindServerScan (reach : String → Int → Bool) :
    List JsonEntry → List JsonEntry × String
  | [] => ([], "")
  | e :: es =>
    if entryReachable reach e then ([e], candidateURL e)
    else
      ((FindServerScan reach es).1.cons e, (FindServerScan reach es).2)

/-- Outcome of the directory query that precedes the scan:
whether `http.Resolve(REPORT_HOSTNAME, REPORT_PORT)` succeeded, the status
code of `http.GET("/match/list", &result)` when it ran (`code` stays at its
initializer 500 otherwise), and the parsed JSON body — `none` when
`JsonReader` is not `ok()` or the root is null, otherwise the root's
children. -/
structure DirOutcome where
  resolveOk : Bool
  code : Int
  json : Option (List JsonEntry)
  deriving Repr

/-- Function `FindServer()`: query the directory, bail out with `""` on a non-200
code (which includes resolution failure) or an unusable body, otherwise
scan the entries for the first reachable one. -/
def FindServer (reach : String → Int → Bool) (o : DirOutcome) : String :=
  let code : Int := if o.resolveOk then o.code else 500
  if code ≠ 200 then ""
  else
    match o.json with
    | none => ""
    | some entries => (FindServerScan reach entries).2

/-- C5: the scan returns the candidate URL of the first entry (in directory
order) whose address is reachable, or `""` when the list is empty or no
entry is reachable; and the probed entries are exactly the unreachable
prefix plus the first reachable entry — probes happen strictly in order and
stop at the first success.  (Determinism is inherent: the scan is a pure
function of the entry list and the reachability oracle.) -/
theorem C5_first_reachable (reach : String → Int → Bool)
    (entries : List JsonEntry) :
    (FindServerScan reach entries).2 =
      (((entries.find? (entryReachable reach)).map candidateURL).getD "") ∧
    (FindServerScan reach entries).1 =
      entries.takeWhile (fun e => !entryReachable reach e) ++
        (entries.find? (entryReachable reach)).toList := by
  induction entries with
  | nil => exact ⟨rfl, rfl⟩
  | cons e es ih =>
    cases h : entryReachable reach e
    · simp [FindServerScan, h, List.find?_cons_of_neg, List.takeWhile_cons,
        ih.1, ih.2]
    · simp [FindServerScan, h, List.find?_cons_of_pos, List.takeWhile_cons]

/-- C6: when the rendezvous host does not resolve, the directory answers
with a status other than 200, or the body fails to parse as JSON,
`FindServer` returns `""`; no failure escapes (the model is a total
function into `String`). -/
theorem C6_degraded_to_empty (reach : String → Int → Bool) (o : DirOutcome)
    (h : o.resolveOk = false ∨ o.code ≠ 200 ∨ o.json = none) :
    FindServer reach o = "" := by
  rcases h with h | h | h
  · simp [FindServer, h]
  · by_cases hres : o.resolveOk <;> simp [FindServer, hres, h]
  · by_cases hres : o.resolveOk <;> by_cases hc : o.code = 200 <;>
      simp [FindServer, hres, hc, h]

/-- Witness for C6 at a concrete input: resolution succeeds but the
directory answers 404. -/
theorem C6_degraded_to_empty_witness :
    FindServer (fun _ _ => true) ⟨true, 404, some []⟩ = "" :=
  C6_degraded_to_empty (fun _ _ => true) ⟨true, 404, some []⟩
    (Or.inr (Or.inl (by decide)))

/-- C10: an entry missing both the `ip` and `p` fields is not skipped: the
defaults `""` and `0` yield the candidate URL `http://:0`, and the entry is
probed in order like any other — it heads the probe list, the scan stops on
it when `("", 0)` is reachable and otherwise continues with the rest. -/
theorem C10_missing_fields_defaulted (reach : String → Int → Bool)
    (es : List JsonEntry) (e : JsonEntry)
    (hip : e.ip = none) (hp : e.p = none) :
    candidateURL e = "http://:0" ∧
    FindServerScan reach (e :: es) =
      (if reach "" 0 then ([e], "http://:0")
       else ((FindServerScan reach es).1.cons e, (FindServerScan reach es).2)) := by
  have hurl : candidateURL e = "http://:0" := by
    simp only [candidateURL, entryHost, entryPort, hip, hp, Option.getD_none]
    decide
  refine ⟨hurl, ?_⟩
  simp only [FindServerScan, entryReachable, entryHost, entryPort, hip, hp,
    Option.getD_none, hurl]

/-- Witness for C10 at a concrete input: the field-less entry heads an
empty tail under an all-unreachable oracle. -/
theorem C10_missing_fields_defaulted_witness :
    candidateURL ⟨none, none⟩ = "http://:0" :=
  (C10_missing_fields_defaulted (fun _ _ => false) [] ⟨none, none⟩ rfl rfl).1
